import Mathlib

/-!
Verification of the document style extraction/application pipeline
(`DocumentStyleExtractor` / `DocumentStyleApplier` in `src/main.py`).

The embedding models the python-docx level objects the code manipulates:
runs carry an optional font override per attribute (None = inherit),
paragraphs carry runs plus optional paragraph-format fields, documents
carry sections (margins, header/footer paragraph lists), body paragraphs
and tables.  Lengths are naturals (EMU), colors are naturals (24-bit RGB),
tri-state booleans are `Option Bool`.

Python truthiness, which the source uses pervasively as its "is set"
test, is modelled explicitly: a length/enum is truthy iff present and
nonzero, a string iff present and nonempty, an RGBColor (a nonempty
tuple) iff present, and `is not None` checks are `Option.isSome`.
-/

namespace DocFmt

/-- Truthiness of an optional string: present and nonempty. -/
def truthyStr : Option String → Bool
  | none => false
  | some s => s ≠ ""

/-- Truthiness of an optional numeric value (length, enum, spacing):
present and nonzero. -/
def truthyNat : Option Nat → Bool
  | none => false
  | some n => n ≠ 0

/-- Font attributes of a run or of a captured font dict.  `none` is the
python-docx `None`, meaning "no explicit override, inherit". -/
structure Font where
  name : Option String
  size : Option Nat
  color : Option Nat
  bold : Option Bool
  italic : Option Bool
  underline : Option Bool
  deriving Repr, DecidableEq

/-- A run with no explicit font overrides, as produced by `add_run`. -/
def Font.unset : Font := ⟨none, none, none, none, none, none⟩

/-- A run: literal text plus font overrides. -/
structure Run where
  text : String
  font : Font
  deriving Repr, DecidableEq

/-- Paragraph-format fields (`paragraph.paragraph_format` in python-docx). -/
structure ParaFormat where
  lineSpacing : Option Nat
  leftIndent : Option Nat
  rightIndent : Option Nat
  firstLineIndent : Option Nat
  hangingIndent : Option Nat
  spaceBefore : Option Nat
  spaceAfter : Option Nat
  deriving Repr, DecidableEq

/-- Paragraph format with nothing explicitly set. -/
def ParaFormat.unset : ParaFormat := ⟨none, none, none, none, none, none, none⟩

/-- A paragraph: runs, optional alignment (WD_PARAGRAPH_ALIGNMENT value,
LEFT = 0), paragraph format, and the named style (`paragraph.style.name`). -/
structure Paragraph where
  runs : List Run
  alignment : Option Nat
  fmt : ParaFormat
  styleName : String
  deriving Repr, DecidableEq

/-- Model of `paragraph.text`: concatenation of run texts. -/
def Paragraph.text (p : Paragraph) : String :=
  String.join (p.runs.map Run.text)

/-- A fresh empty paragraph, as produced by `add_paragraph`. -/
def Paragraph.empty : Paragraph := ⟨[], none, ParaFormat.unset, "Normal"⟩

/-- A fresh paragraph holding one plain run of the given text. -/
def mkTextParagraph (s : String) : Paragraph :=
  ⟨[⟨s, Font.unset⟩], none, ParaFormat.unset, "Normal"⟩

/-- The `paragraph.text = s` setter: replaces all runs by a single new
run carrying `s`; paragraph-level properties are kept. -/
def Paragraph.setText (p : Paragraph) (s : String) : Paragraph :=
  { p with runs := [⟨s, Font.unset⟩] }

/-- Python `str.strip()` on the character list: drop leading and
trailing whitespace. -/
def stripChars (l : List Char) : List Char :=
  ((l.dropWhile Char.isWhitespace).reverse.dropWhile Char.isWhitespace).reverse

/-- Python `str.strip()`. -/
def pyStrip (s : String) : String := String.mk (stripChars s.data)

/-- Model of `paragraph.text.strip()` truthiness: the stripped text is nonempty. -/
def Paragraph.hasText (p : Paragraph) : Bool :=
  pyStrip p.text ≠ ""

/-- Margin fields of a section (each a python-docx Length or None). -/
structure Margins where
  top : Option Nat
  bottom : Option Nat
  left : Option Nat
  right : Option Nat
  deriving Repr, DecidableEq

/-- A table cell: its contained paragraphs.  `cell.text` is derived.
python-docx guarantees every cell of a real document holds at least one
paragraph; the embedding keeps the list general and states that
invariant where a claim needs it. -/
structure Cell where
  paragraphs : List Paragraph
  deriving Repr, DecidableEq

/-- Model of `cell.text`: newline-join of the cell's paragraph texts. -/
def Cell.text (c : Cell) : String :=
  String.intercalate "\n" (c.paragraphs.map Paragraph.text)

/-- A fresh cell as created by `add_row`: one empty paragraph. -/
def Cell.new : Cell := ⟨[Paragraph.empty]⟩

/-- A source-document table: rows of cells. -/
structure SrcTable where
  rows : List (List Cell)
  deriving Repr, DecidableEq

/-- A source-document section: margins, whether `start_type` is
NEW_PAGE, and the header/footer paragraph lists. -/
structure SrcSection where
  margins : Margins
  startNewPage : Bool
  header : List Paragraph
  footer : List Paragraph
  deriving Repr, DecidableEq

/-- A parsed source document as walked by `extract_from_docx`. -/
structure SrcDoc where
  sections : List SrcSection
  paragraphs : List Paragraph
  tables : List SrcTable
  deriving Repr, DecidableEq

/-- Indentation fields of the styles dict. -/
structure Indents where
  left : Option Nat
  right : Option Nat
  firstLine : Option Nat
  hanging : Option Nat
  deriving Repr, DecidableEq

/-- The per-paragraph style dict built by `_extract_paragraph_style`.
`font = none` models the initial empty font dict (paragraph without
runs); `font = some f` models the dict of the first run's attributes. -/
structure ParaStyleInfo where
  font : Option Font
  alignment : Option Nat
  lineSpacing : Option Nat
  indentation : Indents
  spaceBefore : Option Nat
  spaceAfter : Option Nat
  deriving Repr, DecidableEq

/-- A paragraph style dict with nothing set. -/
def ParaStyleInfo.unset : ParaStyleInfo :=
  ⟨none, none, none, ⟨none, none, none, none⟩, none, none⟩

/-- A captured header or footer entry: literal text plus its style. -/
structure HFInfo where
  text : String
  style : ParaStyleInfo
  deriving Repr, DecidableEq

/-- A captured table cell: text (verbatim) plus optional style. -/
structure CellInfo where
  text : String
  style : Option ParaStyleInfo
  deriving Repr, DecidableEq

/-- A captured table: its rows of captured cells.  (The source also
stores a constant `style: None` key that is never read back.) -/
structure TableInfo where
  rows : List (List CellInfo)
  deriving Repr, DecidableEq

/-- A captured section entry: margins plus page-break-before flag. -/
structure SectionInfo where
  margins : Margins
  pageBreakBefore : Bool
  deriving Repr, DecidableEq

/-- The `self.styles` dict of `DocumentStyleExtractor`. -/
structure Styles where
  defaultFont : Font
  headingStyles : List ParaStyleInfo
  paragraphStyles : List ParaStyleInfo
  headers : List HFInfo
  footers : List HFInfo
  tables : List TableInfo
  sections : List SectionInfo
  margins : Margins
  indentations : Indents
  lineSpacing : Option Nat
  alignment : Nat
  deriving Repr, DecidableEq

/-- Initial default font: Calibri, Pt(11) = 139700 EMU, RGBColor(0,0,0),
bold/italic/underline False (note: concrete values, not unset). -/
def initialDefaultFont : Font :=
  { name := some "Calibri", size := some 139700, color := some 0,
    bold := some false, italic := some false, underline := some false }

/-- The styles dict as initialized by `DocumentStyleExtractor.__init__`.
(The `page_breaks` key stays an empty list forever and is omitted.) -/
def initStyles : Styles :=
  { defaultFont := initialDefaultFont
  , headingStyles := []
  , paragraphStyles := []
  , headers := []
  , footers := []
  , tables := []
  , sections := []
  , margins := ⟨none, none, none, none⟩
  , indentations := ⟨none, none, none, none⟩
  , lineSpacing := none
  , alignment := 0 }

/-- The error raised when `extract_from_docx` evaluates
`self._extract_paragraph_style`: that attribute exists on neither
`DocumentStyleExtractor` nor the (second, effective) definition of
`DocumentStyleApplier` — it is defined only on the first
`DocumentStyleApplier` class, which the second definition of the same
name immediately shadows.  Python therefore raises AttributeError at
every call site of `self._extract_paragraph_style` in the extractor. -/
inductive ExtractErr
  | attributeError
  deriving Repr, DecidableEq

/-- The section pass of `extract_from_docx`: append one entry per
section; the first section's margins become the document-level margins. -/
def sectionsPass (st : Styles) (d : SrcDoc) : Styles :=
  { st with
    sections := st.sections ++ d.sections.map (fun s => ⟨s.margins, s.startNewPage⟩)
  , margins := match d.sections.head? with
               | some s0 => s0.margins
               | none => st.margins }

/-- The header/footer paragraph loop: each paragraph with nonempty
trimmed text reaches `self._extract_paragraph_style` and raises. -/
def extractHFParas : List Paragraph → Except ExtractErr (List HFInfo)
  | [] => .ok []
  | p :: ps =>
    if p.hasText then .error .attributeError else extractHFParas ps

/-- The header loop over all sections. -/
def extractHeaders : List SrcSection → Except ExtractErr (List HFInfo)
  | [] => .ok []
  | s :: ss =>
    match extractHFParas s.header with
    | .error e => .error e
    | .ok h =>
      match extractHeaders ss with
      | .error e => .error e
      | .ok rest => .ok (h ++ rest)

/-- The footer loop over all sections. -/
def extractFooters : List SrcSection → Except ExtractErr (List HFInfo)
  | [] => .ok []
  | s :: ss =>
    match extractHFParas s.footer with
    | .error e => .error e
    | .ok h =>
      match extractFooters ss with
      | .error e => .error e
      | .ok rest => .ok (h ++ rest)

/-- The body paragraph loop: each paragraph with nonempty trimmed text
reaches `self._extract_paragraph_style` and raises, before the
heading/paragraph routing below the call is ever reached. -/
def extractBody : List Paragraph → Except ExtractErr Unit
  | [] => .ok ()
  | p :: ps =>
    if p.hasText then .error .attributeError else extractBody ps

/-- One table cell of the table pass: the ternary guard only protects a
cell with no paragraphs; otherwise the style call raises. -/
def extractCellInfo (c : Cell) : Except ExtractErr CellInfo :=
  match c.paragraphs with
  | [] => .ok ⟨c.text, none⟩
  | _ :: _ => .error .attributeError

/-- One table row of the table pass. -/
def extractRowInfo : List Cell → Except ExtractErr (List CellInfo)
  | [] => .ok []
  | c :: cs =>
    match extractCellInfo c with
    | .error e => .error e
    | .ok ci =>
      match extractRowInfo cs with
      | .error e => .error e
      | .ok rest => .ok (ci :: rest)

/-- The row loop of the table pass for one table. -/
def extractRowsInfo : List (List Cell) → Except ExtractErr (List (List CellInfo))
  | [] => .ok []
  | r :: rs =>
    match extractRowInfo r with
    | .error e => .error e
    | .ok ri =>
      match extractRowsInfo rs with
      | .error e => .error e
      | .ok rest => .ok (ri :: rest)

/-- One table of the table pass. -/
def extractTableInfo (t : SrcTable) : Except ExtractErr TableInfo :=
  match extractRowsInfo t.rows with
  | .error e => .error e
  | .ok rs => .ok ⟨rs⟩

/-- The table pass over all tables. -/
def extractTables : List SrcTable → Except ExtractErr (List TableInfo)
  | [] => .ok []
  | t :: ts =>
    match extractTableInfo t with
    | .error e => .error e
    | .ok ti =>
      match extractTables ts with
      | .error e => .error e
      | .ok rest => .ok (ti :: rest)

/-- The "defaults from first paragraph's first run" update: each field
is overwritten only when the run's value is truthy (`is not None` for
the tri-state booleans; the color condition is rgb-present, since a
present RGBColor — a nonempty tuple — is always truthy). -/
def updateDefaultFont (df : Font) (f : Font) : Font :=
  { name := if truthyStr f.name then f.name else df.name
  , size := if truthyNat f.size then f.size else df.size
  , color := if f.color.isSome then f.color else df.color
  , bold := if f.bold.isSome then f.bold else df.bold
  , italic := if f.italic.isSome then f.italic else df.italic
  , underline := if f.underline.isSome then f.underline else df.underline }

/-- The final pass of `extract_from_docx`: re-derive global defaults
from the whole document's first paragraph (truthiness-guarded; the
hanging indent is not part of this pass in the source). -/
def defaultsPass (st : Styles) (d : SrcDoc) : Styles :=
  match d.paragraphs.head? with
  | none => st
  | some fp =>
    let st := match fp.runs.head? with
      | none => st
      | some r => { st with defaultFont := updateDefaultFont st.defaultFont r.font }
    let st := if truthyNat fp.fmt.lineSpacing then { st with lineSpacing := fp.fmt.lineSpacing } else st
    let st := if truthyNat fp.alignment then { st with alignment := fp.alignment.getD 0 } else st
    let st := if truthyNat fp.fmt.leftIndent then
        { st with indentations := { st.indentations with left := fp.fmt.leftIndent } } else st
    let st := if truthyNat fp.fmt.rightIndent then
        { st with indentations := { st.indentations with right := fp.fmt.rightIndent } } else st
    let st := if truthyNat fp.fmt.firstLineIndent then
        { st with indentations := { st.indentations with firstLine := fp.fmt.firstLineIndent } } else st
    st

/-- Model of `DocumentStyleExtractor.extract_from_docx`: sections pass, header
loop, footer loop, body loop, table loop, defaults pass.  Every loop
that reaches `self._extract_paragraph_style` raises AttributeError
(see `ExtractErr`), which propagates to the caller. -/
def extract_from_docx (d : SrcDoc) : Except ExtractErr Styles :=
  let st := sectionsPass initStyles d
  match extractHeaders d.sections with
  | .error e => .error e
  | .ok hs =>
    match extractFooters d.sections with
    | .error e => .error e
    | .ok fs =>
      let st := { st with headers := hs, footers := fs }
      match extractBody d.paragraphs with
      | .error e => .error e
      | .ok _ =>
        match extractTables d.tables with
        | .error e => .error e
        | .ok ts => .ok (defaultsPass { st with tables := ts } d)

/-! ## The applier (`DocumentStyleApplier`, second — effective — definition) -/

/-- A table in the output document: the grid's column count (one
gridCol per column, so `add_row` creates that many cells) and the rows
actually written. -/
structure OutTable where
  cols : Nat
  rows : List (List Cell)
  deriving Repr, DecidableEq

/-- One body element of the output document, in body order. -/
inductive Block
  | para (p : Paragraph)
  | table (t : OutTable)
  deriving Repr, DecidableEq

/-- The output document's (single) section.  `Document()` has exactly
one section and no applier operation adds sections, so the first
section is the section. -/
structure OutSection where
  margins : Margins
  header : List Paragraph
  footer : List Paragraph
  deriving Repr, DecidableEq

/-- The output document: its section and body blocks. -/
structure OutDoc where
  sect : OutSection
  body : List Block
  deriving Repr, DecidableEq

/-- Built-in page margin of a fresh `Document()`: one inch = 914400 EMU
on every side. -/
def builtinMargin : Nat := 914400

/-- The default section of a fresh `Document()`: built-in margins, and
header/footer regions that materialize with one empty paragraph on
first access (as `section.header.paragraphs` does). -/
def OutSection.default : OutSection :=
  ⟨⟨some builtinMargin, some builtinMargin, some builtinMargin, some builtinMargin⟩,
   [Paragraph.empty], [Paragraph.empty]⟩

/-- A fresh blank `Document()`. -/
def newDoc : OutDoc := ⟨OutSection.default, []⟩

/-- Model of `_apply_document_settings`: only when the captured sections list is
truthy (nonempty), overwrite each margin of the first section whose
captured value is truthy (present and nonzero). -/
def apply_document_settings (s : Styles) (d : OutDoc) : OutDoc :=
  if s.sections.isEmpty then d
  else
    { d with sect := { d.sect with margins :=
      { top := if truthyNat s.margins.top then s.margins.top else d.sect.margins.top
      , bottom := if truthyNat s.margins.bottom then s.margins.bottom else d.sect.margins.bottom
      , left := if truthyNat s.margins.left then s.margins.left else d.sect.margins.left
      , right := if truthyNat s.margins.right then s.margins.right else d.sect.margins.right } } }

/-- Model of `DocumentStyleApplier.__init__`: a fresh document with
`_apply_document_settings` already run. -/
def mkApplier (s : Styles) : OutDoc := apply_document_settings s newDoc

/-- Model of `_apply_font_to_run`: each attribute is overwritten only when the
captured value is truthy — nonempty name, nonzero size, present color
(an RGBColor is a nonempty tuple, truthy whenever present), and
`is not None` for the three tri-state booleans. -/
def apply_font_to_run (f : Font) (r : Run) : Run :=
  { r with font :=
    { name := if truthyStr f.name then f.name else r.font.name
    , size := if truthyNat f.size then f.size else r.font.size
    , color := if f.color.isSome then f.color else r.font.color
    , bold := if f.bold.isSome then f.bold else r.font.bold
    , italic := if f.italic.isSome then f.italic else r.font.italic
    , underline := if f.underline.isSome then f.underline else r.font.underline } }

/-- Model of `_apply_style_to_paragraph`: overwrite alignment / line spacing /
indentation / spacing fields only when the captured value is truthy
(note alignment LEFT = 0 is falsy and hence never applied), then apply
the captured font to every run already present.  A paragraph style is
always a populated dict here, so the `if not style_info` guard never
fires at the modelled call sites; `font = none` models a style whose
font dict is empty (`if not font_info: return` makes it a no-op). -/
def apply_style_to_paragraph (st : ParaStyleInfo) (p : Paragraph) : Paragraph :=
  { runs := match st.font with
            | none => p.runs
            | some f => p.runs.map (apply_font_to_run f)
  , alignment := if truthyNat st.alignment then st.alignment else p.alignment
  , fmt :=
    { lineSpacing := if truthyNat st.lineSpacing then st.lineSpacing else p.fmt.lineSpacing
    , leftIndent := if truthyNat st.indentation.left then st.indentation.left else p.fmt.leftIndent
    , rightIndent := if truthyNat st.indentation.right then st.indentation.right else p.fmt.rightIndent
    , firstLineIndent := if truthyNat st.indentation.firstLine then st.indentation.firstLine else p.fmt.firstLineIndent
    , hangingIndent := if truthyNat st.indentation.hanging then st.indentation.hanging else p.fmt.hangingIndent
    , spaceBefore := if truthyNat st.spaceBefore then st.spaceBefore else p.fmt.spaceBefore
    , spaceAfter := if truthyNat st.spaceAfter then st.spaceAfter else p.fmt.spaceAfter }
  , styleName := p.styleName }

/-- One iteration of the `add_headers` loop: reuse the header's first
paragraph when the header is truthy (nonempty), else add one; set its
text (replacing its runs) and apply the captured style. -/
def setHeaderEntry (d : OutDoc) (hf : HFInfo) : OutDoc :=
  match d.sect.header with
  | [] =>
    { d with sect := { d.sect with header :=
        [apply_style_to_paragraph hf.style (Paragraph.setText Paragraph.empty hf.text)] } }
  | p0 :: rest =>
    { d with sect := { d.sect with header :=
        (apply_style_to_paragraph hf.style (Paragraph.setText p0 hf.text) :: rest) } }

/-- Model of `add_headers`: the loop over all captured header entries. -/
def add_headers (s : Styles) (d : OutDoc) : OutDoc :=
  s.headers.foldl setHeaderEntry d

/-- One iteration of the `add_footers` loop (mirror of the header one). -/
def setFooterEntry (d : OutDoc) (hf : HFInfo) : OutDoc :=
  match d.sect.footer with
  | [] =>
    { d with sect := { d.sect with footer :=
        [apply_style_to_paragraph hf.style (Paragraph.setText Paragraph.empty hf.text)] } }
  | p0 :: rest =>
    { d with sect := { d.sect with footer :=
        (apply_style_to_paragraph hf.style (Paragraph.setText p0 hf.text) :: rest) } }

/-- Model of `add_footers`: the loop over all captured footer entries. -/
def add_footers (s : Styles) (d : OutDoc) : OutDoc :=
  s.footers.foldl setFooterEntry d

/-- One chat message as normalized by the caller: role and content. -/
structure Msg where
  role : String
  content : String
  deriving Repr, DecidableEq

/-- Python `str.capitalize`: first character uppercased, the rest
lowercased. -/
def pyCapitalize (s : String) : String :=
  match s.data with
  | [] => ""
  | c :: cs => String.mk (c.toUpper :: cs.map Char.toLower)

/-- The role-label paragraph of one message: a run of
`role.capitalize() + ": "` with the default font applied, then
`role_run.bold = True`. -/
def mkRolePara (df : Font) (m : Msg) : Paragraph :=
  let r := apply_font_to_run df ⟨pyCapitalize m.role ++ ": ", Font.unset⟩
  { Paragraph.empty with runs := [{ r with font := { r.font with bold := some true } }] }

/-- The content paragraph of one message: a run of the raw text; then
the first captured paragraph style is applied when one exists, else the
default font is applied to the run directly. -/
def mkContentPara (df : Font) (ps : Option ParaStyleInfo) (m : Msg) : Paragraph :=
  let p : Paragraph := { Paragraph.empty with runs := [⟨m.content, Font.unset⟩] }
  match ps with
  | some st => apply_style_to_paragraph st p
  | none => { p with runs := p.runs.map (apply_font_to_run df) }

/-- The body blocks emitted by the `add_chat_content` loop: role
paragraph and content paragraph per message, with one blank paragraph
added after every message except the last (`i < len - 1`). -/
def chatBlocks (df : Font) (ps : Option ParaStyleInfo) : List Msg → List Block
  | [] => []
  | [m] => [.para (mkRolePara df m), .para (mkContentPara df ps m)]
  | m :: m2 :: rest =>
    .para (mkRolePara df m) :: .para (mkContentPara df ps m) ::
      .para Paragraph.empty :: chatBlocks df ps (m2 :: rest)

/-- Model of `add_chat_content`: append the chat blocks to the body, using
`paragraph_styles[0]` when that list is truthy, else None. -/
def add_chat_content (s : Styles) (d : OutDoc) (msgs : List Msg) : OutDoc :=
  { d with body := d.body ++ chatBlocks s.defaultFont s.paragraphStyles.head? msgs }

/-- The error raised by `row.cells[j]` when a captured row holds more
cells than the table's column count (the first captured row's length). -/
inductive ApplyErr
  | indexError
  deriving Repr, DecidableEq

/-- Writing one captured cell: `cell.text = ...` replaces the cell's
content with a single paragraph holding the text, then the captured
style — when truthy — is applied to that (now surely present) first
paragraph. -/
def mkOutCell (cd : CellInfo) : Cell :=
  match cd.style with
  | some st => ⟨[apply_style_to_paragraph st (mkTextParagraph cd.text)]⟩
  | none => ⟨[mkTextParagraph cd.text]⟩

/-- One `add_row` plus the cell-writing loop of `add_tables`: the new
row has `numCols` fresh cells; cell `j` is written from the row's
`j`-th captured cell, and an index past the column count raises.
(Mutations before a raised error are discarded: the caller's error
path never reads the partially built document.) -/
def fillRow (numCols : Nat) (rowData : List CellInfo) : Except ApplyErr (List Cell) :=
  if rowData.length ≤ numCols then
    .ok (rowData.map mkOutCell ++ List.replicate (numCols - rowData.length) Cell.new)
  else .error .indexError

/-- The row loop of `add_tables` for one table. -/
def buildRows (numCols : Nat) : List (List CellInfo) → Except ApplyErr (List (List Cell))
  | [] => .ok []
  | r :: rs =>
    match fillRow numCols r with
    | .error e => .error e
    | .ok cs =>
      match buildRows numCols rs with
      | .error e => .error e
      | .ok rest => .ok (cs :: rest)

/-- Building one output table: `add_table(rows=0, cols=len(rows[0]))`
followed by the row loop. -/
def buildTable (t : TableInfo) : Except ApplyErr OutTable :=
  match buildRows (t.rows.headD []).length t.rows with
  | .error e => .error e
  | .ok rs => .ok ⟨(t.rows.headD []).length, rs⟩

/-- The `add_tables` loop: a table whose captured rows list is empty is
skipped (`continue`); otherwise the built table is appended to the body
followed by one blank spacing paragraph.  An error stops the loop and
propagates. -/
def add_tables_aux : List TableInfo → OutDoc → Except ApplyErr OutDoc
  | [], d => .ok d
  | t :: ts, d =>
    if t.rows.isEmpty then add_tables_aux ts d
    else
      match buildTable t with
      | .error e => .error e
      | .ok tbl =>
        add_tables_aux ts { d with body := d.body ++ [.table tbl, .para Paragraph.empty] }

/-- Model of `add_tables` over the captured tables. -/
def add_tables (s : Styles) (d : OutDoc) : Except ApplyErr OutDoc :=
  add_tables_aux s.tables d

/-! ## Helper lemmas -/

/-- Applying a font dict never changes a run's text. -/
theorem text_apply_font (f : Font) (r : Run) :
    (apply_font_to_run f r).text = r.text := rfl

/-- Applying a fully-unset font dict to a run changes nothing. -/
theorem apply_font_to_run_unset (r : Run) :
    apply_font_to_run Font.unset r = r := rfl

/-- Applying a paragraph style never changes run texts, hence not the
paragraph text. -/
theorem text_apply_style (st : ParaStyleInfo) (p : Paragraph) :
    (apply_style_to_paragraph st p).text = p.text := by
  unfold apply_style_to_paragraph Paragraph.text
  cases st.font with
  | none => rfl
  | some f =>
    show String.join ((p.runs.map (apply_font_to_run f)).map Run.text) = _
    rw [List.map_map]
    have : Run.text ∘ apply_font_to_run f = Run.text := funext fun r => rfl
    rw [this]

/-- The text of a paragraph after the `paragraph.text = s` setter is `s`. -/
theorem text_setText (p : Paragraph) (s : String) :
    (Paragraph.setText p s).text = s := by
  simp [Paragraph.setText, Paragraph.text, String.join]

/-! ## Claim theorems -/

/-- Failing input of claim C1: a source document with a single body
paragraph "Hello" whose first run explicitly sets font name "Arial",
size 24 pt (304800 EMU), color FF0000 and bold. -/
def docC1 : SrcDoc :=
  { sections := [⟨⟨some builtinMargin, some builtinMargin, some builtinMargin, some builtinMargin⟩,
                  false, [], []⟩]
  , paragraphs := [⟨[⟨"Hello", ⟨some "Arial", some 304800, some 16711680, some true, none, none⟩⟩],
                    none, ParaFormat.unset, "Normal"⟩]
  , tables := [] }

/-- C1: the claimed round trip (extract a single explicitly-formatted
paragraph, apply to one content item, observe that font on the first
content paragraph's run) cannot happen: extraction itself raises
AttributeError on the claim's own inputs, because
`self._extract_paragraph_style` is not defined on
`DocumentStyleExtractor` (it lives only on the first, shadowed
`DocumentStyleApplier` class).  Evaluating the extractor at the failing
input yields the error, so no StyleModel and no output document exist. -/
theorem c1_roundtrip_blocked_by_crash :
    extract_from_docx docC1 = .error .attributeError := by rfl

/-- Failing input of claim C2: a source document with exactly one
non-empty body paragraph, named style "Normal" (not heading-named). -/
def docC2 : SrcDoc :=
  { sections := [⟨⟨some builtinMargin, some builtinMargin, some builtinMargin, some builtinMargin⟩,
                  false, [], []⟩]
  , paragraphs := [⟨[⟨"First paragraph", Font.unset⟩], none, ParaFormat.unset, "Normal"⟩]
  , tables := [] }

/-- C2: for N = 1 non-empty, non-heading body paragraphs the claim
demands `paragraphStyles` of length 1; the code instead raises
AttributeError at the first non-empty paragraph (missing
`_extract_paragraph_style` on the extractor), so no StyleModel is
returned at all. -/
theorem c2_order_preservation_blocked_by_crash :
    extract_from_docx docC2 = .error .attributeError := by rfl

/-- C8 counterexample: `add_chat_content` with an empty message list at
a concrete input returns normally with the document unchanged — it does
not fail with any typed error, contradicting the claimed EmptyContent
failure. -/
theorem c8_counterexample_silent_success :
    add_chat_content initStyles (mkApplier initStyles) [] = mkApplier initStyles := by rfl

/-- C8 amended: calling `add_chat_content` with an empty sequence
silently succeeds and leaves the output document unchanged (the
function is total here and appends nothing); no EmptyContent error
exists in the code.  The caller `Action.action` separately returns an
untyped error dict when no chat messages are found, before
`add_chat_content` is ever called on an empty list. -/
theorem c8_amended_empty_input_is_noop (s : Styles) (d : OutDoc) :
    add_chat_content s d [] = d := by
  simp [add_chat_content, chatBlocks]

/-- Styles value for the C6 counterexample: sections captured
(nonempty) and the top margin explicitly set to length zero. -/
def stylesC6 : Styles :=
  { initStyles with
    sections := [⟨⟨some 0, none, none, none⟩, false⟩]
  , margins := ⟨some 0, none, none, none⟩ }

/-- C6 counterexample: a margin explicitly set to length zero is NOT
applied — `if margins['top']:` is a truthiness test and zero is falsy —
so the output keeps its built-in default (914400 EMU) instead of the
model's explicit 0. -/
theorem c6_counterexample_zero_margin_ignored :
    stylesC6.margins.top = some 0 ∧
    (apply_document_settings stylesC6 newDoc).sect.margins.top = some builtinMargin ∧
    builtinMargin ≠ 0 := by
  exact ⟨rfl, rfl, by decide⟩

/-- C6 amended: when the captured sections list is nonempty, each
margin of the output's first section is overwritten exactly when the
model's value is truthy — present AND nonzero; an unset margin or a
margin explicitly set to zero leaves the output's built-in default
untouched.  (With an empty sections list nothing is touched at all;
see claim C10.) -/
theorem c6_amended_margin_precedence (s : Styles) (d : OutDoc) (h : s.sections ≠ []) :
    (apply_document_settings s d).sect.margins =
      { top := if truthyNat s.margins.top then s.margins.top else d.sect.margins.top
      , bottom := if truthyNat s.margins.bottom then s.margins.bottom else d.sect.margins.bottom
      , left := if truthyNat s.margins.left then s.margins.left else d.sect.margins.left
      , right := if truthyNat s.margins.right then s.margins.right else d.sect.margins.right } := by
  have hne : s.sections.isEmpty = false := by
    cases hs : s.sections with
    | nil => exact absurd hs h
    | cons a l => simp
  simp [apply_document_settings, hne]

/-- Styles value witnessing the amended C6: one captured section, top
margin 100, bottom margin explicitly 0, left unset, right 200. -/
def stylesC6w : Styles :=
  { initStyles with
    sections := [⟨⟨some 100, some 0, none, some 200⟩, false⟩]
  , margins := ⟨some 100, some 0, none, some 200⟩ }

/-- Witness for the amended C6 at a concrete input: the truthy margins
(100, 200) are applied, the zero and the unset margins keep the
built-in default. -/
theorem c6_amended_witness :
    stylesC6w.sections ≠ [] ∧
    (apply_document_settings stylesC6w newDoc).sect.margins =
      { top := if truthyNat stylesC6w.margins.top then stylesC6w.margins.top else newDoc.sect.margins.top
      , bottom := if truthyNat stylesC6w.margins.bottom then stylesC6w.margins.bottom else newDoc.sect.margins.bottom
      , left := if truthyNat stylesC6w.margins.left then stylesC6w.margins.left else newDoc.sect.margins.left
      , right := if truthyNat stylesC6w.margins.right then stylesC6w.margins.right else newDoc.sect.margins.right } :=
  ⟨by decide, c6_amended_margin_precedence stylesC6w newDoc (by decide)⟩

/-- C10: when the captured sections sequence is empty, constructing the
applier leaves every margin of the output's first section at the
built-in default (one inch each), regardless of the model's
document-level margin values. -/
theorem c10_empty_sections_margins_untouched (s : Styles) (h : s.sections = []) :
    (mkApplier s).sect.margins =
      ⟨some builtinMargin, some builtinMargin, some builtinMargin, some builtinMargin⟩ := by
  simp [mkApplier, apply_document_settings, h, newDoc, OutSection.default]

/-- Styles value for the C10 witness: empty sections but explicit
document-level margins. -/
def stylesC10 : Styles :=
  { initStyles with margins := ⟨some 123, some 456, some 789, some 1011⟩ }

/-- Witness for C10 at a concrete input: explicit margins with no
captured sections leave all four output margins at 914400 EMU. -/
theorem c10_witness :
    stylesC10.sections = [] ∧
    (mkApplier stylesC10).sect.margins =
      ⟨some builtinMargin, some builtinMargin, some builtinMargin, some builtinMargin⟩ :=
  ⟨rfl, c10_empty_sections_margins_untouched stylesC10 rfl⟩

/-- All font fields of a paragraph style are unset: either the font
dict is the empty one (paragraph had no runs at extraction) or every
attribute in it is None. -/
def ParaStyleInfo.fontAllUnset (st : ParaStyleInfo) : Prop :=
  st.font = none ∨ st.font = some Font.unset

/-- C3: applying a `ParagraphStyle` whose font fields are all unset
leaves every font attribute (name, size, color, bold, italic,
underline) of every run of the target paragraph unchanged — all the
truthiness / `is not None` guards in `_apply_font_to_run` fail, so no
attribute is written. -/
theorem c3_unset_font_nondestructive (st : ParaStyleInfo) (p : Paragraph)
    (h : st.fontAllUnset) :
    (apply_style_to_paragraph st p).runs.map Run.font = p.runs.map Run.font := by
  rcases h with h | h
  · simp [apply_style_to_paragraph, h]
  · simp [apply_style_to_paragraph, h, apply_font_to_run_unset]

/-- Style with every font field unset but other fields set, for the C3
witness. -/
def stC3 : ParaStyleInfo :=
  { ParaStyleInfo.unset with alignment := some 1, lineSpacing := some 2 }

/-- Paragraph with pre-existing run formatting, for the C3 witness. -/
def pC3 : Paragraph :=
  ⟨[⟨"template text", ⟨some "Times New Roman", some 254000, some 255, some true, some false, some true⟩⟩],
   some 2, ParaFormat.unset, "Normal"⟩

/-- Witness for C3 at a concrete input: the pre-existing fonts survive. -/
theorem c3_witness :
    stC3.fontAllUnset ∧
    (apply_style_to_paragraph stC3 pC3).runs.map Run.font = pC3.runs.map Run.font :=
  ⟨Or.inl rfl, c3_unset_font_nondestructive stC3 pC3 (Or.inl rfl)⟩

/-- A body block that renders as a blank paragraph: a paragraph with
empty text. -/
def isBlankBlock : Block → Bool
  | .para p => p.text = ""
  | .table _ => false

/-- The two paragraphs one message contributes: role label, content. -/
def msgBlocks1 (df : Font) (ps : Option ParaStyleInfo) (m : Msg) : List Block :=
  [.para (mkRolePara df m), .para (mkContentPara df ps m)]

/-- The chat loop's output is the per-message block pairs with exactly
one blank paragraph interposed between consecutive messages. -/
theorem chatBlocks_eq_intercalate (df : Font) (ps : Option ParaStyleInfo) :
    ∀ msgs : List Msg,
      chatBlocks df ps msgs
        = List.intercalate [Block.para Paragraph.empty] (msgs.map (msgBlocks1 df ps))
  | [] => by simp [chatBlocks, List.intercalate]
  | [m] => by simp [chatBlocks, msgBlocks1, List.intercalate]
  | m :: m2 :: rest => by
    have ih := chatBlocks_eq_intercalate df ps (m2 :: rest)
    simp only [chatBlocks, ih, List.map_cons]
    simp [List.intercalate, List.intersperse, msgBlocks1]

/-- The text of a role-label paragraph. -/
theorem text_mkRolePara (df : Font) (m : Msg) :
    (mkRolePara df m).text = pyCapitalize m.role ++ ": " := by
  show String.join [pyCapitalize m.role ++ ": "] = _
  simp [String.join]

/-- The text of a content paragraph is exactly the message content. -/
theorem text_mkContentPara (df : Font) (ps : Option ParaStyleInfo) (m : Msg) :
    (mkContentPara df ps m).text = m.content := by
  cases ps with
  | none => simp [mkContentPara, Paragraph.text, String.join, text_apply_font]
  | some st =>
    show (apply_style_to_paragraph st _).text = _
    rw [text_apply_style]
    simp [Paragraph.text, String.join]

/-- A role-label paragraph is never blank: its text ends in a colon and
a space. -/
theorem mkRolePara_not_blank (df : Font) (m : Msg) :
    isBlankBlock (Block.para (mkRolePara df m)) = false := by
  simp only [isBlankBlock, text_mkRolePara]
  apply decide_eq_false
  intro h
  have hlen := congrArg String.length h
  have h2 : (": " : String).length = 2 := rfl
  have h0 : ("" : String).length = 0 := rfl
  rw [String.length_append, h2, h0] at hlen
  omega

/-- A content paragraph of a message with nonempty content is not blank. -/
theorem mkContentPara_not_blank (df : Font) (ps : Option ParaStyleInfo) (m : Msg)
    (h : m.content ≠ "") :
    isBlankBlock (Block.para (mkContentPara df ps m)) = false := by
  simp only [isBlankBlock, text_mkContentPara]
  exact decide_eq_false h

/-- Count of blank paragraphs among the chat blocks: one per message
pair boundary, given nonempty message contents. -/
theorem countBlank_chatBlocks (df : Font) (ps : Option ParaStyleInfo) :
    ∀ msgs : List Msg, (∀ m ∈ msgs, m.content ≠ "") →
      (chatBlocks df ps msgs).countP isBlankBlock = msgs.length - 1
  | [], _ => by simp [chatBlocks]
  | [m], h => by
    have hc := mkContentPara_not_blank df ps m (h m (by simp))
    have hr := mkRolePara_not_blank df m
    simp [chatBlocks, List.countP_cons, hc, hr]
  | m :: m2 :: rest, h => by
    have ih := countBlank_chatBlocks df ps (m2 :: rest) (fun x hx => h x (by simp [hx]))
    have hc := mkContentPara_not_blank df ps m (h m (by simp))
    have hr := mkRolePara_not_blank df m
    have hb : isBlankBlock (Block.para Paragraph.empty) = true := rfl
    show (Block.para (mkRolePara df m) :: Block.para (mkContentPara df ps m) ::
            Block.para Paragraph.empty :: chatBlocks df ps (m2 :: rest)).countP isBlankBlock = _
    rw [List.countP_cons, List.countP_cons, List.countP_cons, ih, hc, hr, hb]
    simp

/-- The chat blocks of a nonempty message list end with the last
message's content paragraph. -/
theorem chatBlocks_getLast (df : Font) (ps : Option ParaStyleInfo) :
    ∀ msgs : List Msg, msgs ≠ [] →
      ∃ m ∈ msgs, (chatBlocks df ps msgs).getLast?
        = some (Block.para (mkContentPara df ps m))
  | [], h => absurd rfl h
  | [m], _ => ⟨m, by simp, by simp [chatBlocks]⟩
  | m :: m2 :: rest, _ => by
    obtain ⟨x, hx, he⟩ := chatBlocks_getLast df ps (m2 :: rest) (by simp)
    refine ⟨x, by simp only [List.mem_cons] at hx ⊢; tauto, ?_⟩
    have hne : chatBlocks df ps (m2 :: rest) ≠ [] := by
      cases rest <;> simp [chatBlocks]
    rw [show chatBlocks df ps (m :: m2 :: rest)
          = Block.para (mkRolePara df m) :: Block.para (mkContentPara df ps m) ::
              Block.para Paragraph.empty :: chatBlocks df ps (m2 :: rest) from rfl]
    rw [List.getLast?_cons_cons, List.getLast?_cons_cons]
    cases hcb : chatBlocks df ps (m2 :: rest) with
    | nil => exact absurd hcb hne
    | cons b bs => rw [List.getLast?_cons_cons]; rw [hcb] at he; exact he

/-- Every content paragraph holds exactly one run, so it never equals
the (run-less) blank paragraph. -/
theorem mkContentPara_ne_empty (df : Font) (ps : Option ParaStyleInfo) (m : Msg) :
    mkContentPara df ps m ≠ Paragraph.empty := by
  intro h
  have hlen := congrArg (fun p => p.runs.length) h
  cases ps with
  | none => simp [mkContentPara, Paragraph.empty] at hlen
  | some st =>
    cases hf : st.font with
    | none => simp [mkContentPara, apply_style_to_paragraph, hf, Paragraph.empty] at hlen
    | some f => simp [mkContentPara, apply_style_to_paragraph, hf, Paragraph.empty] at hlen

/-- C5: for a nonempty sequence of content items with nonempty texts,
`add_chat_content` appends the per-item role/content paragraph pairs
with exactly one blank paragraph between consecutive items
(structurally: an intercalation), the number of blank paragraphs
appended is exactly N - 1, and the appended sequence does not end in a
blank paragraph. -/
theorem c5_blank_separators (s : Styles) (d : OutDoc) (msgs : List Msg)
    (h1 : msgs ≠ []) (h2 : ∀ m ∈ msgs, m.content ≠ "") :
    (add_chat_content s d msgs).body
      = d.body ++ List.intercalate [Block.para Paragraph.empty]
          (msgs.map (msgBlocks1 s.defaultFont s.paragraphStyles.head?)) ∧
    (chatBlocks s.defaultFont s.paragraphStyles.head? msgs).countP isBlankBlock
      = msgs.length - 1 ∧
    (chatBlocks s.defaultFont s.paragraphStyles.head? msgs).getLast?
      ≠ some (Block.para Paragraph.empty) := by
  refine ⟨?_, countBlank_chatBlocks _ _ msgs h2, ?_⟩
  · rw [add_chat_content, chatBlocks_eq_intercalate]
  · obtain ⟨m, _, he⟩ := chatBlocks_getLast s.defaultFont s.paragraphStyles.head? msgs h1
    rw [he]
    intro hc
    exact mkContentPara_ne_empty _ _ m (by injection (Option.some.inj hc))

/-- The three concrete messages of the C5 witness. -/
def msgsC5 : List Msg := [⟨"user", "Hi"⟩, ⟨"assistant", "Hello!"⟩, ⟨"user", "Thanks"⟩]

/-- Witness for C5 at three concrete messages: exactly two blank
separator paragraphs, none trailing. -/
theorem c5_witness :
    msgsC5 ≠ [] ∧ (∀ m ∈ msgsC5, m.content ≠ "") ∧
    ((add_chat_content initStyles newDoc msgsC5).body
      = newDoc.body ++ List.intercalate [Block.para Paragraph.empty]
          (msgsC5.map (msgBlocks1 initStyles.defaultFont initStyles.paragraphStyles.head?)) ∧
     (chatBlocks initStyles.defaultFont initStyles.paragraphStyles.head? msgsC5).countP isBlankBlock
       = msgsC5.length - 1 ∧
     (chatBlocks initStyles.defaultFont initStyles.paragraphStyles.head? msgsC5).getLast?
       ≠ some (Block.para Paragraph.empty)) :=
  ⟨by decide, by decide, c5_blank_separators initStyles newDoc msgsC5 (by decide) (by decide)⟩

/-- The fresh applier's header region holds exactly the template's one
empty paragraph (applying document settings touches only margins). -/
theorem mkApplier_header (s : Styles) :
    (mkApplier s).sect.header = [Paragraph.empty] := by
  unfold mkApplier apply_document_settings
  split <;> rfl

/-- The fresh applier's footer region holds exactly the template's one
empty paragraph. -/
theorem mkApplier_footer (s : Styles) :
    (mkApplier s).sect.footer = [Paragraph.empty] := by
  unfold mkApplier apply_document_settings
  split <;> rfl

/-- The header loop keeps a single-paragraph header region and folds
every captured entry into that one slot: each iteration resets its
text and applies the entry's style on top of the previous result. -/
theorem single_header_fold (hs : List HFInfo) :
    ∀ (d : OutDoc) (p : Paragraph), d.sect.header = [p] →
      (hs.foldl setHeaderEntry d).sect.header
        = [hs.foldl (fun q hf => apply_style_to_paragraph hf.style (Paragraph.setText q hf.text)) p] := by
  induction hs with
  | nil => intro d p h; simpa using h
  | cons hf hs ih =>
    intro d p h
    rw [List.foldl_cons, List.foldl_cons]
    apply ih
    simp [setHeaderEntry, h]

/-- Footer analogue of `single_header_fold`. -/
theorem single_footer_fold (hs : List HFInfo) :
    ∀ (d : OutDoc) (p : Paragraph), d.sect.footer = [p] →
      (hs.foldl setFooterEntry d).sect.footer
        = [hs.foldl (fun q hf => apply_style_to_paragraph hf.style (Paragraph.setText q hf.text)) p] := by
  induction hs with
  | nil => intro d p h; simpa using h
  | cons hf hs ih =>
    intro d p h
    rw [List.foldl_cons, List.foldl_cons]
    apply ih
    simp [setFooterEntry, h]

/-- Styles value of the C4 counterexample: two captured header entries
"A" then "B", each with an all-unset style. -/
def stylesC4 : Styles :=
  { initStyles with headers := [⟨"A", ParaStyleInfo.unset⟩, ⟨"B", ParaStyleInfo.unset⟩] }

/-- C4 counterexample: with K = 2 captured header entries, `add_headers`
reuses the single existing header paragraph for every entry, so the
second entry overwrites the first; the output header region carries
only "B" and the text "A" of the first captured entry is absent. -/
theorem c4_counterexample_header_overwrite :
    (add_headers stylesC4 (mkApplier stylesC4)).sect.header.map Paragraph.text = ["B"] ∧
    "A" ∉ (add_headers stylesC4 (mkApplier stylesC4)).sect.header.map Paragraph.text := by
  exact ⟨rfl, by decide⟩

/-- Fallback entry for `getLastD` (never selected under the nonempty
hypotheses). -/
def defaultHF : HFInfo := ⟨"", ParaStyleInfo.unset⟩

/-- C4 amended: starting from the fresh output document (whose header
and footer regions each hold one empty paragraph), `add_headers` writes
every captured entry in order into that same first paragraph slot, each
overwriting the previous; afterwards the header region consists of a
single paragraph carrying exactly the LAST captured entry's text, with
that entry's style applied (on top of paragraph-level residue of the
earlier entries' styles); symmetrically for `add_footers`. -/
theorem c4_amended_last_entry_wins (s : Styles)
    (hh : s.headers ≠ []) (hf : s.footers ≠ []) :
    ((add_headers s (mkApplier s)).sect.header.map Paragraph.text
        = [(s.headers.getLastD defaultHF).text] ∧
     ∃ q, (add_headers s (mkApplier s)).sect.header
        = [apply_style_to_paragraph (s.headers.getLastD defaultHF).style
            (Paragraph.setText q (s.headers.getLastD defaultHF).text)]) ∧
    ((add_footers s (mkApplier s)).sect.footer.map Paragraph.text
        = [(s.footers.getLastD defaultHF).text] ∧
     ∃ q, (add_footers s (mkApplier s)).sect.footer
        = [apply_style_to_paragraph (s.footers.getLastD defaultHF).style
            (Paragraph.setText q (s.footers.getLastD defaultHF).text)]) := by
  have main : ∀ (hs : List HFInfo), hs ≠ [] → ∀ (d : OutDoc) (p : Paragraph),
      d.sect.header = [p] →
      ((hs.foldl setHeaderEntry d).sect.header.map Paragraph.text
          = [(hs.getLastD defaultHF).text] ∧
       ∃ q, (hs.foldl setHeaderEntry d).sect.header
          = [apply_style_to_paragraph (hs.getLastD defaultHF).style
              (Paragraph.setText q (hs.getLastD defaultHF).text)]) := by
    intro hs hne d p h
    rcases List.eq_nil_or_concat hs with rfl | ⟨L, e, rfl⟩
    · exact absurd rfl hne
    · simp only [List.concat_eq_append] at hne ⊢
      have hfold := single_header_fold (L ++ [e]) d p h
      have hlast : (L ++ [e]).getLastD defaultHF = e := by
        simp [List.getLastD_eq_getLast?, List.getLast?_concat]
      rw [hlast]
      have hrhs : (L ++ [e]).foldl
            (fun q hf => apply_style_to_paragraph hf.style (Paragraph.setText q hf.text)) p
          = apply_style_to_paragraph e.style
              (Paragraph.setText
                (L.foldl (fun q hf => apply_style_to_paragraph hf.style (Paragraph.setText q hf.text)) p)
                e.text) := by
        rw [List.foldl_append]
        rfl
      rw [hrhs] at hfold
      constructor
      · rw [hfold, List.map_cons, List.map_nil, text_apply_style, text_setText]
      · exact ⟨_, hfold⟩
  have mainF : ∀ (hs : List HFInfo), hs ≠ [] → ∀ (d : OutDoc) (p : Paragraph),
      d.sect.footer = [p] →
      ((hs.foldl setFooterEntry d).sect.footer.map Paragraph.text
          = [(hs.getLastD defaultHF).text] ∧
       ∃ q, (hs.foldl setFooterEntry d).sect.footer
          = [apply_style_to_paragraph (hs.getLastD defaultHF).style
              (Paragraph.setText q (hs.getLastD defaultHF).text)]) := by
    intro hs hne d p h
    rcases List.eq_nil_or_concat hs with rfl | ⟨L, e, rfl⟩
    · exact absurd rfl hne
    · simp only [List.concat_eq_append] at hne ⊢
      have hfold := single_footer_fold (L ++ [e]) d p h
      have hlast : (L ++ [e]).getLastD defaultHF = e := by
        simp [List.getLastD_eq_getLast?, List.getLast?_concat]
      rw [hlast]
      have hrhs : (L ++ [e]).foldl
            (fun q hf => apply_style_to_paragraph hf.style (Paragraph.setText q hf.text)) p
          = apply_style_to_paragraph e.style
              (Paragraph.setText
                (L.foldl (fun q hf => apply_style_to_paragraph hf.style (Paragraph.setText q hf.text)) p)
                e.text) := by
        rw [List.foldl_append]
        rfl
      rw [hrhs] at hfold
      constructor
      · rw [hfold, List.map_cons, List.map_nil, text_apply_style, text_setText]
      · exact ⟨_, hfold⟩
  exact ⟨main s.headers hh (mkApplier s) Paragraph.empty (mkApplier_header s),
         mainF s.footers hf (mkApplier s) Paragraph.empty (mkApplier_footer s)⟩

/-- Styles value of the C4 witness: two header entries and two footer
entries. -/
def stylesC4w : Styles :=
  { initStyles with
    headers := [⟨"A", ParaStyleInfo.unset⟩, ⟨"B", ParaStyleInfo.unset⟩]
  , footers := [⟨"F1", ParaStyleInfo.unset⟩, ⟨"F2", ParaStyleInfo.unset⟩] }

/-- Witness for the amended C4 at a concrete input: the surviving
header text is "B", the surviving footer text is "F2". -/
theorem c4_amended_witness :
    stylesC4w.headers ≠ [] ∧ stylesC4w.footers ≠ [] ∧
    (((add_headers stylesC4w (mkApplier stylesC4w)).sect.header.map Paragraph.text
        = [(stylesC4w.headers.getLastD defaultHF).text] ∧
      ∃ q, (add_headers stylesC4w (mkApplier stylesC4w)).sect.header
        = [apply_style_to_paragraph (stylesC4w.headers.getLastD defaultHF).style
            (Paragraph.setText q (stylesC4w.headers.getLastD defaultHF).text)]) ∧
     ((add_footers stylesC4w (mkApplier stylesC4w)).sect.footer.map Paragraph.text
        = [(stylesC4w.footers.getLastD defaultHF).text] ∧
      ∃ q, (add_footers stylesC4w (mkApplier stylesC4w)).sect.footer
        = [apply_style_to_paragraph (stylesC4w.footers.getLastD defaultHF).style
            (Paragraph.setText q (stylesC4w.footers.getLastD defaultHF).text)])) :=
  ⟨by decide, by decide,
   c4_amended_last_entry_wins stylesC4w (by decide) (by decide)⟩

/-- Number of table nodes among the body blocks. -/
def countTables (body : List Block) : Nat :=
  body.countP (fun b => match b with | .table _ => true | .para _ => false)

/-- Styles value of the C7 counterexample: one captured table whose
single row has zero cells (zero columns). -/
def stylesC7 : Styles := { initStyles with tables := [⟨[[]]⟩] }

/-- C7 counterexample: a zero-column table (first row has zero cells)
is NOT skipped — the rows list `[[]]` is truthy, so `add_tables`
creates a zero-column table and adds its (cell-less) row, emitting one
table node in the output body, against the claimed "emits no table
node for it". -/
theorem c7_counterexample_zero_col_table_emitted :
    (add_tables stylesC7 (mkApplier stylesC7)).map (fun d => countTables d.body)
      = .ok 1 := by rfl

/-- A row whose captured length does not exceed the column count is
written without error. -/
theorem fillRow_ok (n : Nat) (r : List CellInfo) (h : r.length ≤ n) :
    fillRow n r = .ok (r.map mkOutCell ++ List.replicate (n - r.length) Cell.new) := by
  simp [fillRow, h]

/-- All rows of a table are written without error when none exceeds the
column count. -/
theorem buildRows_ok (n : Nat) :
    ∀ rs : List (List CellInfo), (∀ r ∈ rs, r.length ≤ n) →
      ∃ out, buildRows n rs = .ok out
  | [], _ => ⟨[], rfl⟩
  | r :: rs, h => by
    obtain ⟨out, hout⟩ := buildRows_ok n rs (fun x hx => h x (by simp [hx]))
    refine ⟨(r.map mkOutCell ++ List.replicate (n - r.length) Cell.new) :: out, ?_⟩
    simp [buildRows, fillRow_ok n r (h r (by simp)), hout]

/-- A table none of whose rows exceeds the first row's length is built
without error. -/
theorem buildTable_ok (t : TableInfo)
    (h : ∀ r ∈ t.rows, r.length ≤ (t.rows.headD []).length) :
    ∃ tbl, buildTable t = .ok tbl := by
  obtain ⟨out, hout⟩ := buildRows_ok (t.rows.headD []).length t.rows h
  exact ⟨⟨(t.rows.headD []).length, out⟩, by unfold buildTable; rw [hout]⟩

/-- The table loop succeeds and emits exactly one table node per
captured table with a nonempty rows list, zero for the others. -/
theorem add_tables_aux_count :
    ∀ (ts : List TableInfo) (d : OutDoc),
      (∀ t ∈ ts, ∀ r ∈ t.rows, r.length ≤ (t.rows.headD []).length) →
      ∃ d', add_tables_aux ts d = .ok d' ∧
        countTables d'.body = countTables d.body + ts.countP (fun t => !t.rows.isEmpty)
  | [], d, _ => ⟨d, rfl, by simp [countTables]⟩
  | t :: ts, d, h => by
    by_cases he : t.rows.isEmpty
    · obtain ⟨d', h1, h2⟩ := add_tables_aux_count ts d (fun x hx => h x (by simp [hx]))
      refine ⟨d', ?_, ?_⟩
      · simp [add_tables_aux, he, h1]
      · rw [h2, List.countP_cons]
        simp [he]
    · obtain ⟨tbl, htbl⟩ := buildTable_ok t (h t (by simp))
      obtain ⟨d', h1, h2⟩ := add_tables_aux_count ts
        { d with body := d.body ++ [.table tbl, .para Paragraph.empty] }
        (fun x hx => h x (by simp [hx]))
      refine ⟨d', ?_, ?_⟩
      · simp [add_tables_aux, he, htbl, h1]
      · rw [h2, List.countP_cons]
        simp only [countTables, List.countP_append, he]
        simp [List.countP_cons]
        omega

/-- C7 amended: a captured table with zero rows is skipped and yields
no table node; a zero-column table (first row has zero cells) is NOT
skipped — it is emitted as a zero-column table node, without error as
long as no captured row of any table is longer than its table's first
row; every captured table with a nonempty rows list contributes exactly
one table node, so all other tables are still processed. -/
theorem c7_amended_table_emission (s : Styles) (d : OutDoc)
    (h : ∀ t ∈ s.tables, ∀ r ∈ t.rows, r.length ≤ (t.rows.headD []).length) :
    ∃ d', add_tables s d = .ok d' ∧
      countTables d'.body = countTables d.body
        + s.tables.countP (fun t => !t.rows.isEmpty) := by
  exact add_tables_aux_count s.tables d h

/-- Styles value of the C7 witness: a zero-column table, a zero-row
table and an ordinary one-cell table. -/
def stylesC7w : Styles :=
  { initStyles with
    tables := [⟨[[]]⟩, ⟨[]⟩, ⟨[[⟨"x", none⟩]]⟩] }

/-- Witness for the amended C7 at a concrete input: no error, and two
table nodes (the zero-column one and the ordinary one; the zero-row one
is skipped). -/
theorem c7_amended_witness :
    (∀ t ∈ stylesC7w.tables, ∀ r ∈ t.rows, r.length ≤ (t.rows.headD []).length) ∧
    ∃ d', add_tables stylesC7w (mkApplier stylesC7w) = .ok d' ∧
      countTables d'.body = countTables (mkApplier stylesC7w).body
        + stylesC7w.tables.countP (fun t => !t.rows.isEmpty) :=
  ⟨by decide, c7_amended_table_emission stylesC7w (mkApplier stylesC7w) (by decide)⟩

/-- Whether any point of the extraction walk calls
`self._extract_paragraph_style`: a non-empty (after stripping) header,
footer or body paragraph, or any table cell holding a paragraph. -/
def SrcDoc.tableCellTrigger (d : SrcDoc) : Bool :=
  d.tables.any (fun t => t.rows.any (fun r => r.any (fun c => !c.paragraphs.isEmpty)))

/-- The styled content of claim C9: a non-empty body, header or footer
paragraph, or at least one table cell. -/
def SrcDoc.hasStyledContent (d : SrcDoc) : Bool :=
  d.sections.any (fun s => s.header.any Paragraph.hasText) ||
  d.sections.any (fun s => s.footer.any Paragraph.hasText) ||
  d.paragraphs.any Paragraph.hasText ||
  d.tables.any (fun t => t.rows.any (fun r => !r.isEmpty))

/-- The python-docx structural invariant: every table cell of a parsed
document holds at least one paragraph. -/
def SrcDoc.cellsWellFormed (d : SrcDoc) : Prop :=
  ∀ t ∈ d.tables, ∀ r ∈ t.rows, ∀ c ∈ r, c.paragraphs ≠ []

/-- Characterization of the header/footer paragraph loop. -/
theorem extractHFParas_eq :
    ∀ ps : List Paragraph,
      extractHFParas ps
        = if ps.any Paragraph.hasText then .error .attributeError else .ok []
  | [] => by simp [extractHFParas]
  | p :: ps => by
    cases hp : p.hasText <;>
      simp [extractHFParas, hp, extractHFParas_eq ps]

/-- Characterization of the header loop over sections. -/
theorem extractHeaders_eq :
    ∀ ss : List SrcSection,
      extractHeaders ss
        = if ss.any (fun s => s.header.any Paragraph.hasText)
          then .error .attributeError else .ok []
  | [] => by simp [extractHeaders]
  | s :: ss => by
    simp only [extractHeaders]
    rw [extractHFParas_eq, extractHeaders_eq ss]
    cases hp : s.header.any Paragraph.hasText <;>
      cases hss : ss.any (fun s2 => s2.header.any Paragraph.hasText) <;>
        simp [hp, hss]

/-- Characterization of the footer loop over sections. -/
theorem extractFooters_eq :
    ∀ ss : List SrcSection,
      extractFooters ss
        = if ss.any (fun s => s.footer.any Paragraph.hasText)
          then .error .attributeError else .ok []
  | [] => by simp [extractFooters]
  | s :: ss => by
    simp only [extractFooters]
    rw [extractHFParas_eq, extractFooters_eq ss]
    cases hp : s.footer.any Paragraph.hasText <;>
      cases hss : ss.any (fun s2 => s2.footer.any Paragraph.hasText) <;>
        simp [hp, hss]

/-- Characterization of the body paragraph loop. -/
theorem extractBody_eq :
    ∀ ps : List Paragraph,
      extractBody ps
        = if ps.any Paragraph.hasText then .error .attributeError else .ok ()
  | [] => by simp [extractBody]
  | p :: ps => by
    cases hp : p.hasText <;>
      simp [extractBody, hp, extractBody_eq ps]

/-- Characterization of the cell loop of one table row. -/
theorem extractRowInfo_eq :
    ∀ cs : List Cell,
      extractRowInfo cs
        = if cs.any (fun c => !c.paragraphs.isEmpty)
          then .error .attributeError
          else .ok (cs.map (fun c => ⟨c.text, none⟩))
  | [] => by simp [extractRowInfo]
  | c :: cs => by
    simp only [extractRowInfo]
    rw [extractRowInfo_eq cs]
    cases hc : c.paragraphs with
    | nil =>
      simp only [extractCellInfo, hc]
      cases hcs : cs.any (fun c2 => !c2.paragraphs.isEmpty) <;> simp [hc, hcs]
    | cons p ps => simp [extractCellInfo, hc]

/-- Characterization of the row loop of one table. -/
theorem extractRowsInfo_eq :
    ∀ rs : List (List Cell),
      extractRowsInfo rs
        = if rs.any (fun r => r.any (fun c => !c.paragraphs.isEmpty))
          then .error .attributeError
          else .ok (rs.map (fun r => r.map (fun c => ⟨c.text, none⟩)))
  | [] => by simp [extractRowsInfo]
  | r :: rs => by
    simp only [extractRowsInfo]
    rw [extractRowInfo_eq, extractRowsInfo_eq rs]
    cases hr : r.any (fun c => !c.paragraphs.isEmpty) <;>
      cases hrs : rs.any (fun r2 => r2.any (fun c => !c.paragraphs.isEmpty)) <;>
        simp [hr, hrs]

/-- Characterization of the table loop. -/
theorem extractTables_eq :
    ∀ ts : List SrcTable,
      extractTables ts
        = if ts.any (fun t => t.rows.any (fun r => r.any (fun c => !c.paragraphs.isEmpty)))
          then .error .attributeError
          else .ok (ts.map (fun t => ⟨t.rows.map (fun r => r.map (fun c => ⟨c.text, none⟩))⟩))
  | [] => by simp [extractTables]
  | t :: ts => by
    simp only [extractTables, extractTableInfo]
    rw [extractRowsInfo_eq, extractTables_eq ts]
    cases ht : t.rows.any (fun r => r.any (fun c => !c.paragraphs.isEmpty)) <;>
      cases hts : ts.any (fun t2 => t2.rows.any (fun r => r.any (fun c => !c.paragraphs.isEmpty))) <;>
        simp [ht, hts]

/-- Under the cell invariant, "some cell calls the style helper" is the
same as "some table cell exists". -/
theorem tableCellTrigger_eq (d : SrcDoc) (hwf : d.cellsWellFormed) :
    d.tableCellTrigger = d.tables.any (fun t => t.rows.any (fun r => !r.isEmpty)) := by
  cases ha : d.tableCellTrigger with
  | true =>
    rw [SrcDoc.tableCellTrigger, List.any_eq_true] at ha
    obtain ⟨t, ht, hta⟩ := ha
    rw [List.any_eq_true] at hta
    obtain ⟨r, hr, hra⟩ := hta
    rw [List.any_eq_true] at hra
    obtain ⟨c, hc, _⟩ := hra
    symm
    rw [List.any_eq_true]
    refine ⟨t, ht, ?_⟩
    rw [List.any_eq_true]
    refine ⟨r, hr, ?_⟩
    cases r with
    | nil => exact absurd hc (List.not_mem_nil c)
    | cons a l => simp
  | false =>
    rw [SrcDoc.tableCellTrigger] at ha
    symm
    rw [List.any_eq_false]
    intro t ht
    rw [Bool.not_eq_true, List.any_eq_false]
    intro r hr
    rw [Bool.not_eq_true]
    cases r with
    | nil => simp
    | cons c cs =>
      exfalso
      have hcne := hwf t ht (c :: cs) hr c (by simp)
      rw [List.any_eq_false] at ha
      have h1 := ha t ht
      rw [Bool.not_eq_true, List.any_eq_false] at h1
      have h2 := h1 (c :: cs) hr
      rw [Bool.not_eq_true, List.any_eq_false] at h2
      have h3 := h2 c (by simp)
      simp at h3
      exact hcne h3

/-- C9: for any source document whose table cells each hold at least
one paragraph (as python-docx guarantees), `extract_from_docx` raises
AttributeError exactly when the document has a non-empty (stripped)
body, header or footer paragraph, or at least one table cell — every
such element reaches the missing `self._extract_paragraph_style` — and
completes normally exactly on documents with no such content. -/
theorem c9_extract_crashes_iff_styled_content (d : SrcDoc) (hwf : d.cellsWellFormed) :
    (extract_from_docx d = .error .attributeError ↔ d.hasStyledContent = true) ∧
    (d.hasStyledContent = false → ∃ st, extract_from_docx d = .ok st) := by
  have hcell := tableCellTrigger_eq d hwf
  rw [SrcDoc.tableCellTrigger] at hcell
  rw [extract_from_docx, extractHeaders_eq, extractFooters_eq, extractBody_eq,
      extractTables_eq, SrcDoc.hasStyledContent, ← hcell]
  cases hh : d.sections.any (fun s => s.header.any Paragraph.hasText) <;>
    cases hf : d.sections.any (fun s => s.footer.any Paragraph.hasText) <;>
      cases hb : d.paragraphs.any Paragraph.hasText <;>
        cases ht : d.tables.any (fun t => t.rows.any (fun r => r.any (fun c => !c.paragraphs.isEmpty))) <;>
          simp

/-- Source document of the C9 witness: a single ordinary body
paragraph, no tables. -/
def docC9 : SrcDoc :=
  { sections := [⟨⟨some builtinMargin, some builtinMargin, some builtinMargin, some builtinMargin⟩,
                  false, [], []⟩]
  , paragraphs := [⟨[⟨"Hi", Font.unset⟩], none, ParaFormat.unset, "Normal"⟩]
  , tables := [] }

/-- Witness for C9 at a concrete input with styled content. -/
theorem c9_witness :
    docC9.cellsWellFormed ∧
    ((extract_from_docx docC9 = .error .attributeError ↔ docC9.hasStyledContent = true) ∧
     (docC9.hasStyledContent = false → ∃ st, extract_from_docx docC9 = .ok st)) :=
  ⟨fun t ht => absurd ht (List.not_mem_nil t),
   c9_extract_crashes_iff_styled_content docC9 (fun t ht => absurd ht (List.not_mem_nil t))⟩

end DocFmt
